import Mathlib

/-!
Verification development for the ai-perp-dex repository.

The development shallowly embeds the two subsystems the claims are about:

* `Engine` — the per-market order book of `matching-engine/src/orderbook.rs`,
  `order.rs` and the cancel path of `engine.rs`.  `rust_decimal::Decimal`
  prices and quantities are embedded as `ℚ` (Decimal arithmetic on these
  code paths is exact addition/subtraction/min, so the embedding is exact).
  The `IndexMap` of a level is an insertion-ordered `List Order`; the
  `BTreeMap` sides are association lists kept best-price-first, mirroring
  the iteration order of the Rust code (asks ascending, bids descending).
  Timestamps, the market name and stop/reduce-only flags are dropped: no
  claim mentions them and no branch of the embedded code reads them.

* `Router` — the trade-router: negotiation state and `accept_quote` /
  `close_position` of `state.rs`, the margin formulas of `margin.rs`, one
  iteration of the liquidation loop of `liquidation.rs`, and the funding
  computation of `funding.rs`.  The `f64` values are embedded as `ℚ`
  (the claims at issue are sign conditions, comparisons and algebraic
  identities, where exact rationals render the same arithmetic);
  division by zero, which in `f64` produces no real number, is modelled
  for the one claim about it by an `Option`-valued division.  `Uuid`s are
  embedded as `ℕ`, `DateTime` as `ℤ`.  Database writes and broadcasts are
  external effects and are not part of the in-memory state.
-/

attribute [local semireducible] Rat.add Rat.sub Rat.mul Rat.inv Rat.ofScientific

namespace Engine

/-- Side of an order (order.rs `Side`). -/
inductive Side where
  | Buy
  | Sell
deriving DecidableEq, Repr

/-- Time in force (order.rs `TimeInForce`). -/
inductive TimeInForce where
  | GTC
  | IOC
  | FOK
  | PostOnly
deriving DecidableEq, Repr

/-- Order status (order.rs `OrderStatus`). -/
inductive OrderStatus where
  | Open
  | PartiallyFilled
  | Filled
  | Cancelled
  | Rejected
  | Expired
deriving DecidableEq, Repr

/-- An order (order.rs `Order`), restricted to the fields the order-book
code reads: id, agent, side, optional limit price, total and remaining
quantity, time in force and status. -/
structure Order where
  id : Nat
  agentId : String
  side : Side
  price : Option ℚ
  quantity : ℚ
  remainingQuantity : ℚ
  timeInForce : TimeInForce
  status : OrderStatus
deriving DecidableEq, Repr

/-- order.rs `Order::is_filled`. -/
def Order.isFilled (o : Order) : Bool :=
  decide (o.remainingQuantity = 0)

/-- order.rs `Order::is_active`. -/
def Order.isActive (o : Order) : Bool :=
  decide (o.status = OrderStatus.Open) || decide (o.status = OrderStatus.PartiallyFilled)

/-- order.rs `Order::fill`. -/
def Order.fill (o : Order) (qty : ℚ) : Order :=
  let rem := o.remainingQuantity - qty
  { o with
    remainingQuantity := rem,
    status := if rem = 0 then OrderStatus.Filled else OrderStatus.PartiallyFilled }

/-- order.rs `Order::cancel`. -/
def Order.cancel (o : Order) : Order :=
  { o with status := OrderStatus.Cancelled }

/-- order.rs `Order::new_limit` (timestamps dropped). -/
def Order.new_limit (id : Nat) (agentId : String) (side : Side) (price : ℚ)
    (quantity : ℚ) (tif : TimeInForce) : Order :=
  { id := id, agentId := agentId, side := side, price := some price,
    quantity := quantity, remainingQuantity := quantity,
    timeInForce := tif, status := OrderStatus.Open }

/-- A trade (types.rs `Trade`, market and timestamp dropped). -/
structure Trade where
  id : Nat
  price : ℚ
  quantity : ℚ
  makerOrderId : Nat
  takerOrderId : Nat
  makerAgentId : String
  takerAgentId : String
deriving DecidableEq, Repr

/-- A price level (orderbook.rs `Level`): insertion-ordered orders plus the
aggregate quantity, mirroring the `IndexMap` plus `total_quantity`. -/
structure Level where
  orders : List Order
  totalQuantity : ℚ
deriving DecidableEq, Repr

/-- orderbook.rs `Level::new`. -/
def Level.new : Level :=
  { orders := [], totalQuantity := 0 }

/-- orderbook.rs `Level::add_order` (`IndexMap::insert` appends for a fresh
key; order ids are process-unique, so append is the faithful rendering). -/
def Level.add_order (l : Level) (o : Order) : Level :=
  { orders := l.orders ++ [o], totalQuantity := l.totalQuantity + o.remainingQuantity }

/-- orderbook.rs `Level::remove_order` (`IndexMap::shift_remove`). -/
def Level.remove_order (l : Level) (oid : Nat) : Option (Order × Level) :=
  match l.orders.find? (fun o => decide (o.id = oid)) with
  | none => none
  | some o =>
      some (o, { orders := l.orders.filter (fun o2 => decide (o2.id ≠ oid)),
                 totalQuantity := l.totalQuantity - o.remainingQuantity })

/-- orderbook.rs `Level::is_empty`. -/
def Level.isEmpty (l : Level) : Bool :=
  l.orders.isEmpty

/-- The order book (orderbook.rs `OrderBook`).  `bids` is kept descending
(best bid first) and `asks` ascending (best ask first), so both sides are
iterated front-to-back exactly as the Rust code walks outward from the
best price.  `ordersIndex` is the order-id → (price, side) lookup map. -/
structure Book where
  bids : List (ℚ × Level)
  asks : List (ℚ × Level)
  ordersIndex : List (Nat × ℚ × Side)
  sequence : Nat
  tradeCounter : Nat
  bestBid : Option ℚ
  bestAsk : Option ℚ
deriving DecidableEq, Repr

/-- orderbook.rs `OrderBook::new`. -/
def Book.new : Book :=
  { bids := [], asks := [], ordersIndex := [], sequence := 0,
    tradeCounter := 0, bestBid := none, bestAsk := none }

/-- Insert an order into a best-first level list kept ascending by price
(the ask side of the `BTreeMap`): `entry(price).or_insert(Level::new).add_order`. -/
def insertLevelAsc (price : ℚ) (o : Order) : List (ℚ × Level) → List (ℚ × Level)
  | [] => [(price, Level.new.add_order o)]
  | (p, l) :: rest =>
      if price = p then (p, l.add_order o) :: rest
      else if price < p then (price, Level.new.add_order o) :: (p, l) :: rest
      else (p, l) :: insertLevelAsc price o rest

/-- Insert an order into a best-first level list kept descending by price
(the bid side, iterated in reverse by the Rust code). -/
def insertLevelDesc (price : ℚ) (o : Order) : List (ℚ × Level) → List (ℚ × Level)
  | [] => [(price, Level.new.add_order o)]
  | (p, l) :: rest =>
      if price = p then (p, l.add_order o) :: rest
      else if p < price then (price, Level.new.add_order o) :: (p, l) :: rest
      else (p, l) :: insertLevelDesc price o rest

/-- orderbook.rs `OrderBook::add_order_to_book`.  The source unwraps
`order.price` (a limit order always carries one; a priceless order would
abort there), rendered as `getD 0` for totality — no claim reaches the
priceless case. -/
def Book.add_order_to_book (book : Book) (o : Order) : Book :=
  let price := o.price.getD 0
  match o.side with
  | Side.Buy =>
      { book with bids := insertLevelDesc price o book.bids,
                  ordersIndex := book.ordersIndex ++ [(o.id, price, Side.Buy)] }
  | Side.Sell =>
      { book with asks := insertLevelAsc price o book.asks,
                  ordersIndex := book.ordersIndex ++ [(o.id, price, Side.Sell)] }

/-- orderbook.rs `OrderBook::update_best_prices`: best bid is the largest
bid key (head of the descending list), best ask the smallest ask key. -/
def Book.update_best_prices (book : Book) : Book :=
  { book with bestBid := book.bids.head?.map Prod.fst,
              bestAsk := book.asks.head?.map Prod.fst }

/-- Result of consuming maker orders at one price level
(the inner `for maker_order_id in order_ids` loop of `match_order`). -/
structure FillResult where
  taker : Order
  makers : List Order
  totalQuantity : ℚ
  trades : List Trade
  tradeCounter : Nat
  removedIds : List Nat
deriving Repr

/-- The inner maker loop of orderbook.rs `OrderBook::match_order`: walk the
level FIFO, fill `min(remaining_taker, remaining_maker)` against each maker,
emit a trade per fill, decrement the level aggregate, and record the ids of
makers that became fully filled (removed from the id index by the source). -/
def fillLoop (price : ℚ) (taker : Order) (makers : List Order)
    (totalQ : ℚ) (counter : Nat) : FillResult :=
  match makers with
  | [] => { taker := taker, makers := [], totalQuantity := totalQ,
            trades := [], tradeCounter := counter, removedIds := [] }
  | m :: rest =>
      if taker.remainingQuantity = 0 then
        { taker := taker, makers := m :: rest, totalQuantity := totalQ,
          trades := [], tradeCounter := counter, removedIds := [] }
      else
        let fillQty := min taker.remainingQuantity m.remainingQuantity
        let t : Trade :=
          { id := counter, price := price, quantity := fillQty,
            makerOrderId := m.id, takerOrderId := taker.id,
            makerAgentId := m.agentId, takerAgentId := taker.agentId }
        let taker1 := taker.fill fillQty
        let m1 := m.fill fillQty
        let r := fillLoop price taker1 rest (totalQ - fillQty) (counter + 1)
        { taker := r.taker, makers := m1 :: r.makers,
          totalQuantity := r.totalQuantity, trades := t :: r.trades,
          tradeCounter := r.tradeCounter,
          removedIds := (if m1.isFilled then [m.id] else []) ++ r.removedIds }

/-- Matching at one level: the maker loop followed by
`level.orders.retain(|_, o| !o.is_filled())`. -/
def matchAtLevel (price : ℚ) (taker : Order) (level : Level) (counter : Nat) :
    Order × Level × List Trade × Nat × List Nat :=
  let r := fillLoop price taker level.orders level.totalQuantity counter
  (r.taker,
   { orders := r.makers.filter (fun o => !o.isFilled),
     totalQuantity := r.totalQuantity },
   r.trades, r.tradeCounter, r.removedIds)

/-- Price compatibility guard of `match_order`: a limit buy breaks on a
level above its limit, a limit sell on a level below; market orders
(no price) accept any level. -/
def priceIncompatible (taker : Order) (price : ℚ) : Bool :=
  match taker.price with
  | none => false
  | some limit =>
      match taker.side with
      | Side.Buy => decide (limit < price)
      | Side.Sell => decide (price < limit)

/-- The outer `for price in matching_prices` loop of `match_order`,
run over the opposite side in best-first order; it stops (Rust `break`)
when the taker is exhausted or the next level is not price-compatible,
leaving the remaining levels untouched. -/
def matchLoop (taker : Order) (levels : List (ℚ × Level)) (counter : Nat) :
    Order × List (ℚ × Level) × List Trade × Nat × List Nat :=
  match levels with
  | [] => (taker, [], [], counter, [])
  | (price, level) :: rest =>
      if taker.remainingQuantity = 0 then
        (taker, (price, level) :: rest, [], counter, [])
      else if priceIncompatible taker price then
        (taker, (price, level) :: rest, [], counter, [])
      else
        let (t1, l1, tr1, c1, rem1) := matchAtLevel price taker level counter
        let (t2, rest2, tr2, c2, rem2) := matchLoop t1 rest c1
        (t2, (price, l1) :: rest2, tr1 ++ tr2, c2, rem1 ++ rem2)

/-- orderbook.rs `OrderBook::match_order`: walk the opposite side from the
best price, then drop the price levels that became empty
(`opposite_side.retain(|_, level| !level.is_empty())`) and the filled maker
ids from the order index. -/
def Book.match_order (book : Book) (taker : Order) : Book × Order × List Trade :=
  match taker.side with
  | Side.Buy =>
      let (t, asks1, trades, c, removed) := matchLoop taker book.asks book.tradeCounter
      ({ book with
          asks := asks1.filter (fun pl => !pl.2.isEmpty),
          ordersIndex := book.ordersIndex.filter (fun e => !removed.contains e.1),
          tradeCounter := c },
       t, trades)
  | Side.Sell =>
      let (t, bids1, trades, c, removed) := matchLoop taker book.bids book.tradeCounter
      ({ book with
          bids := bids1.filter (fun pl => !pl.2.isEmpty),
          ordersIndex := book.ordersIndex.filter (fun e => !removed.contains e.1),
          tradeCounter := c },
       t, trades)

/-- orderbook.rs `OrderBook::place_order`: match first (against the live
book), then apply the time-in-force to any active residual — IOC and FOK
cancel it, PostOnly clears the trade list and cancels if any trade was
produced (without undoing the matching) and otherwise rests, GTC rests —
then refresh the best-price caches and bump the sequence number. -/
def Book.place_order (book : Book) (order : Order) : Book × Order × List Trade :=
  let (b1, o1, trades) := book.match_order order
  let (b2, o2, trades2) :=
    if o1.isActive ∧ o1.remainingQuantity ≠ 0 then
      match order.timeInForce with
      | TimeInForce.IOC => (b1, o1.cancel, trades)
      | TimeInForce.FOK => (b1, o1.cancel, trades)
      | TimeInForce.PostOnly =>
          if trades ≠ [] then (b1, o1.cancel, ([] : List Trade))
          else (b1.add_order_to_book o1, o1, trades)
      | TimeInForce.GTC => (b1.add_order_to_book o1, o1, trades)
    else (b1, o1, trades)
  let b3 := b2.update_best_prices
  ({ b3 with sequence := b3.sequence + 1 }, o2, trades2)

/-- Remove one order from the level at `price`: the body of the
`if let Some(level) = levels.get_mut(&price)` block of `cancel_order`,
dropping the level when it empties.  `none` when the level or the order
is absent (the `?` early return of the source). -/
def removeFromLevels (levels : List (ℚ × Level)) (price : ℚ) (oid : Nat) :
    Option (Order × List (ℚ × Level)) :=
  match levels with
  | [] => none
  | (p, l) :: rest =>
      if p = price then
        match l.remove_order oid with
        | none => none
        | some (o, l1) =>
            some (o, if l1.isEmpty then rest else (p, l1) :: rest)
      else
        (removeFromLevels rest price oid).map (fun r => (r.1, (p, l) :: r.2))

/-- orderbook.rs `OrderBook::cancel_order`: look the id up in the index
(removing the entry), remove the order from its level, mark it cancelled,
drop the level if empty, refresh best prices and bump the sequence. -/
def Book.cancel_order (book : Book) (oid : Nat) : Book × Option Order :=
  match book.ordersIndex.find? (fun e => decide (e.1 = oid)) with
  | none => (book, none)
  | some (_, price, side) =>
      let idx1 := book.ordersIndex.filter (fun e => decide (e.1 ≠ oid))
      match side with
      | Side.Buy =>
          match removeFromLevels book.bids price oid with
          | none => ({ book with ordersIndex := idx1 }, none)
          | some (o, bids1) =>
              let b1 := Book.update_best_prices
                { book with ordersIndex := idx1, bids := bids1 }
              ({ b1 with sequence := b1.sequence + 1 }, some o.cancel)
      | Side.Sell =>
          match removeFromLevels book.asks price oid with
          | none => ({ book with ordersIndex := idx1 }, none)
          | some (o, asks1) =>
              let b1 := Book.update_best_prices
                { book with ordersIndex := idx1, asks := asks1 }
              ({ b1 with sequence := b1.sequence + 1 }, some o.cancel)

/-- Engine error kinds (engine.rs `EngineError`), restricted to the two the
cancel path can produce. -/
inductive EngineError where
  | OrderNotFound (id : Nat)
  | InvalidOrder (msg : String)
deriving DecidableEq, Repr

namespace MatchingEngine

/-- engine.rs `MatchingEngine::cancel_order`, specialised to one book (the
engine loops over the per-market books; the order lives in at most one).
The source first calls `book.cancel_order` — which removes and cancels the
order — and only then compares the owner, returning `InvalidOrder` for a
foreign agent without restoring the book. -/
def cancel_order (book : Book) (oid : Nat) (agentId : String) :
    Book × Except EngineError Order :=
  let (b1, res) := book.cancel_order oid
  match res with
  | some o =>
      if o.agentId ≠ agentId then (b1, Except.error (EngineError.InvalidOrder "Not order owner"))
      else (b1, Except.ok o)
  | none => (b1, Except.error (EngineError.OrderNotFound oid))

end MatchingEngine

end Engine

namespace Router

/-- Trade-router market (types.rs `Market`). -/
inductive Market where
  | BtcPerp
  | EthPerp
  | SolPerp
deriving DecidableEq, Repr

/-- Trade-router position side (types.rs `Side`). -/
inductive Side where
  | Long
  | Short
deriving DecidableEq, Repr

/-- Position status (types.rs `PositionStatus`). -/
inductive PositionStatus where
  | Pending
  | Active
  | Closing
  | Closed
  | Liquidated
deriving DecidableEq, Repr

/-- A P2P position (types.rs `Position`; `Uuid`s as `ℕ`, timestamps
dropped — no embedded code path reads them). -/
structure Position where
  id : Nat
  request_id : Nat
  quote_id : Nat
  trader_agent : String
  mm_agent : String
  market : Market
  side : Side
  size_usdc : ℚ
  leverage : Nat
  entry_price : ℚ
  funding_rate : ℚ
  trader_collateral : ℚ
  mm_collateral : ℚ
  status : PositionStatus
deriving DecidableEq, Repr

/-- Margin configuration (margin.rs `MarginConfig`). -/
structure MarginConfig where
  maintenance_ratio : ℚ
  liquidation_fee : ℚ
  max_leverage : Nat
deriving DecidableEq, Repr

/-- margin.rs `MarginConfig::default`. -/
def MarginConfig.default : MarginConfig :=
  { maintenance_ratio := 1 / 2, liquidation_fee := 1 / 100, max_leverage := 20 }

/-- margin.rs `initial_margin`. -/
def initial_margin (size_usdc : ℚ) (leverage : Nat) : ℚ :=
  size_usdc / (leverage : ℚ)

/-- margin.rs `maintenance_margin`. -/
def maintenance_margin (initial : ℚ) (config : MarginConfig) : ℚ :=
  initial * config.maintenance_ratio

/-- margin.rs `unrealized_pnl` (exact-rational rendering of the `f64`
formula; the division-by-zero case is treated by `unrealized_pnl_real`
below). -/
def unrealized_pnl (position : Position) (current_price : ℚ) : ℚ :=
  let price_change := (current_price - position.entry_price) / position.entry_price
  let leveraged_change := price_change * (position.leverage : ℚ)
  match position.side with
  | Side.Long => position.size_usdc * leveraged_change
  | Side.Short => position.size_usdc * (-leveraged_change)

/-- Division as a partial operation: an `f64` division by zero yields no
real number, so its exact-real rendering is undefined there. -/
def fdiv (a b : ℚ) : Option ℚ :=
  if b = 0 then none else some (a / b)

/-- margin.rs `unrealized_pnl` with the partiality of the division made
explicit: the source divides `(current_price - entry_price)` by
`entry_price` with no guard, so the computation has no real value when
`entry_price = 0`. -/
def unrealized_pnl_real (position : Position) (current_price : ℚ) : Option ℚ :=
  match fdiv (current_price - position.entry_price) position.entry_price with
  | none => none
  | some price_change =>
      let leveraged_change := price_change * (position.leverage : ℚ)
      match position.side with
      | Side.Long => some (position.size_usdc * leveraged_change)
      | Side.Short => some (position.size_usdc * (-leveraged_change))

/-- margin.rs `equity`. -/
def equity (position : Position) (current_price : ℚ) : ℚ :=
  position.trader_collateral + unrealized_pnl position current_price

/-- margin.rs `should_liquidate`. -/
def should_liquidate (position : Position) (current_price : ℚ) (config : MarginConfig) : Bool :=
  decide (equity position current_price < maintenance_margin position.trader_collateral config)

/-- margin.rs `liquidation_price`, exactly as computed by the source:
`factor = pnl_at_liq / (size_usdc * leverage / entry_price)` and then
`entry × (1 + factor)` for a long, `entry × (1 − factor)` for a short. -/
def liquidation_price (position : Position) (config : MarginConfig) : ℚ :=
  let maint := maintenance_margin position.trader_collateral config
  let pnl_at_liq := maint - position.trader_collateral
  let factor := pnl_at_liq / (position.size_usdc * (position.leverage : ℚ) / position.entry_price)
  match position.side with
  | Side.Long => position.entry_price * (1 + factor)
  | Side.Short => position.entry_price * (1 - factor)

/-- Price lookup in the in-memory price map (`state.prices.get(&market)`). -/
def price_of (prices : List (Market × ℚ)) (m : Market) : Option ℚ :=
  (prices.find? (fun e => decide (e.1 = m))).map Prod.snd

/-- One pass of the liquidation loop body of liquidation.rs
`start_liquidation_engine` (with `dry_run = false`): for each active
position, read the cached price — falling back to the position's entry
price when the map has none (`unwrap_or(position.entry_price)`) — and
when `should_liquidate` holds, mark the position `Liquidated`
(`execute_liquidation`).  Non-active positions are filtered out by the
snapshot and left as they are. -/
def liquidation_tick (prices : List (Market × ℚ)) (config : MarginConfig)
    (positions : List Position) : List Position :=
  positions.map (fun p =>
    if p.status = PositionStatus.Active ∧
        should_liquidate p ((price_of prices p.market).getD p.entry_price) config then
      { p with status := PositionStatus.Liquidated }
    else p)

/-- A trade request (types.rs `TradeRequest`; expiry as `ℤ` seconds). -/
structure TradeRequest where
  id : Nat
  agent_id : String
  market : Market
  side : Side
  size_usdc : ℚ
  leverage : Nat
  max_funding_rate : ℚ
  expires_at : ℤ
deriving DecidableEq, Repr

/-- A market-maker quote (types.rs `Quote`). -/
structure Quote where
  id : Nat
  request_id : Nat
  agent_id : String
  funding_rate : ℚ
  collateral_usdc : ℚ
  valid_until : ℤ
deriving DecidableEq, Repr

/-- The in-memory application state of state.rs `AppState`, restricted to
the fields the embedded operations read or write.  The agent-positions
index, the broadcast channel and the SQLite handle are dropped: the first
is derived bookkeeping and the other two are external effects. -/
structure AppState where
  requests : List (Nat × TradeRequest)
  quotes : List (Nat × List Quote)
  positions : List (Nat × Position)
  prices : List (Market × ℚ)
deriving DecidableEq, Repr

/-- state.rs `AppState::accept_quote`.  `newId` stands for the freshly
drawn `Uuid::new_v4()` of the created position.  The source checks only
that the request, the quote list and the quote exist; it reads the cached
price with `unwrap_or(0.0)`, builds the position, stores it, and removes
the request with all its quotes.  No expiry field is consulted. -/
def accept_quote (st : AppState) (request_id quote_id : Nat) (newId : Nat) :
    AppState × Except String Position :=
  match st.requests.find? (fun e => decide (e.1 = request_id)) with
  | none => (st, Except.error "Trade request not found")
  | some rq =>
      match st.quotes.find? (fun e => decide (e.1 = request_id)) with
      | none => (st, Except.error "Quotes not found")
      | some qs =>
          match qs.2.find? (fun q => decide (q.id = quote_id)) with
          | none => (st, Except.error "Quote not found")
          | some quote =>
              let request := rq.2
              let entry_price := (price_of st.prices request.market).getD 0
              let position : Position :=
                { id := newId, request_id := request_id, quote_id := quote_id,
                  trader_agent := request.agent_id, mm_agent := quote.agent_id,
                  market := request.market, side := request.side,
                  size_usdc := request.size_usdc, leverage := request.leverage,
                  entry_price := entry_price, funding_rate := quote.funding_rate,
                  trader_collateral := request.size_usdc / (request.leverage : ℚ),
                  mm_collateral := quote.collateral_usdc,
                  status := PositionStatus.Active }
              ({ st with
                  positions := st.positions ++ [(newId, position)],
                  requests := st.requests.filter (fun e => decide (e.1 ≠ request_id)),
                  quotes := st.quotes.filter (fun e => decide (e.1 ≠ request_id)) },
               Except.ok position)

/-- state.rs `AppState::close_position`.  The `_agent_id` parameter is
bound but never read by the source; the position is looked up by id alone,
required to be `Active`, marked `Closed`, and the signed PnL pair
`(pnl_trader, pnl_mm)` is returned with `pnl_mm = -pnl_trader`. -/
def close_position (st : AppState) (position_id : Nat) (_agent_id : String) :
    AppState × Except String (ℚ × ℚ) :=
  match st.positions.find? (fun e => decide (e.1 = position_id)) with
  | none => (st, Except.error "Position not found")
  | some pp =>
      let position := pp.2
      if position.status ≠ PositionStatus.Active then
        (st, Except.error "Position is not active")
      else
        let current_price := (price_of st.prices position.market).getD position.entry_price
        let price_change := (current_price - position.entry_price) / position.entry_price
        let leveraged_change := price_change * (position.leverage : ℚ)
        let pnl_trader :=
          match position.side with
          | Side.Long => position.size_usdc * leveraged_change
          | Side.Short => position.size_usdc * (-leveraged_change)
        let closed := { position with status := PositionStatus.Closed }
        ({ st with positions := st.positions.map (fun e =>
              if e.1 = position_id then (e.1, closed) else e) },
         Except.ok (pnl_trader, -pnl_trader))

/-- A funding payment record (funding.rs `FundingPayment`; by the source's
own comment, `payment_amount` positive means the trader pays the MM). -/
structure FundingPayment where
  position_id : Nat
  trader_agent : String
  mm_agent : String
  funding_rate : ℚ
  position_size : ℚ
  payment_amount : ℚ
deriving DecidableEq, Repr

/-- The per-position computation of funding.rs `settle_funding`:
`periods_per_year = 365 * 24 / interval_hours` and
`payment_amount = size_usdc * funding_rate / periods_per_year`.
The position's side is not consulted. -/
def funding_payment (interval_hours : ℚ) (p : Position) : FundingPayment :=
  let periods_per_year := 365 * 24 / interval_hours
  { position_id := p.id, trader_agent := p.trader_agent, mm_agent := p.mm_agent,
    funding_rate := p.funding_rate, position_size := p.size_usdc,
    payment_amount := p.size_usdc * p.funding_rate / periods_per_year }

/-- funding.rs `settle_funding` over the active-position snapshot (the
resulting records; the database append is an external effect). -/
def settle_funding (interval_hours : ℚ) (positions : List Position) : List FundingPayment :=
  (positions.filter (fun p => decide (p.status = PositionStatus.Active))).map
    (funding_payment interval_hours)

end Router

section Fixtures

open Engine Router in
/-- Book of scenario S6: one resting sell (order 1, agent `maker`) at 50000,
quantity 1. -/
def s6_book : Engine.Book :=
  (Engine.Book.new.place_order
    (Engine.Order.new_limit 1 "maker" Engine.Side.Sell 50000 1 Engine.TimeInForce.GTC)).1

/-- Scenario S6 taker: a PostOnly buy at 50000, quantity 1 — it would cross
the resting ask exactly. -/
def s6_post : Engine.Order :=
  Engine.Order.new_limit 2 "taker" Engine.Side.Buy 50000 1 Engine.TimeInForce.PostOnly

/-- Book of scenario S2: sells id 1 (agent `a1`) then id 2 (agent `a2`),
both at 50000, quantity 1, resting in insertion order. -/
def s2_book : Engine.Book :=
  ((Engine.Book.new.place_order
      (Engine.Order.new_limit 1 "a1" Engine.Side.Sell 50000 1 Engine.TimeInForce.GTC)).1.place_order
    (Engine.Order.new_limit 2 "a2" Engine.Side.Sell 50000 1 Engine.TimeInForce.GTC)).1

/-- Scenario S2 taker: buy id 3, quantity 0.5, at 50000. -/
def s2_buy : Engine.Order :=
  Engine.Order.new_limit 3 "a3" Engine.Side.Buy 50000 (1/2) Engine.TimeInForce.GTC

/-- Book with a single resting sell (order 1, agent `m`) at 50000 of
quantity 0.5 — not enough to fill a quantity-1 taker. -/
def fok_book : Engine.Book :=
  (Engine.Book.new.place_order
    (Engine.Order.new_limit 1 "m" Engine.Side.Sell 50000 (1/2) Engine.TimeInForce.GTC)).1

/-- A FOK buy of quantity 1 at 50000: only half can be filled. -/
def fok_order : Engine.Order :=
  Engine.Order.new_limit 2 "t" Engine.Side.Buy 50000 1 Engine.TimeInForce.FOK

/-- Book with one resting buy (order 1) owned by agent `alice`. -/
def c6_book : Engine.Book :=
  (Engine.Book.new.place_order
    (Engine.Order.new_limit 1 "alice" Engine.Side.Buy 50000 1 Engine.TimeInForce.GTC)).1

/-- An active long position: entry 100, size 1000 USDC, leverage 10,
collateral 100, funding rate 0.01. -/
def pos_long : Router.Position :=
  { id := 1, request_id := 1, quote_id := 1, trader_agent := "trader",
    mm_agent := "mm", market := Router.Market.BtcPerp, side := Router.Side.Long,
    size_usdc := 1000, leverage := 10, entry_price := 100, funding_rate := 1/100,
    trader_collateral := 100, mm_collateral := 100,
    status := Router.PositionStatus.Active }

/-- The same position on the short side. -/
def pos_short : Router.Position :=
  { pos_long with id := 2, side := Router.Side.Short }

/-- A margin configuration whose maintenance margin exceeds the collateral
(ratio 2): any position is below maintenance even at its entry price. -/
def cfg_ratio_two : Router.MarginConfig :=
  { maintenance_ratio := 2, liquidation_fee := 1/100, max_leverage := 20 }

/-- A trade request that expired at time 0 (times are seconds, `ℤ`). -/
def c5_request : Router.TradeRequest :=
  { id := 10, agent_id := "trader", market := Router.Market.BtcPerp,
    side := Router.Side.Long, size_usdc := 1000, leverage := 10,
    max_funding_rate := 1/100, expires_at := 0 }

/-- A quote for `c5_request` whose validity window ended at time 0. -/
def c5_quote : Router.Quote :=
  { id := 20, request_id := 10, agent_id := "mm", funding_rate := 1/100,
    collateral_usdc := 100, valid_until := 0 }

/-- Application state holding the expired request and quote, with a cached
BTC price. -/
def c5_state : Router.AppState :=
  { requests := [(10, c5_request)], quotes := [(10, [c5_quote])],
    positions := [], prices := [(Router.Market.BtcPerp, 84000)] }

/-- The position `accept_quote` builds from `c5_state` (id drawn as 99). -/
def c5_expected : Router.Position :=
  { id := 99, request_id := 10, quote_id := 20, trader_agent := "trader",
    mm_agent := "mm", market := Router.Market.BtcPerp, side := Router.Side.Long,
    size_usdc := 1000, leverage := 10, entry_price := 84000, funding_rate := 1/100,
    trader_collateral := 100, mm_collateral := 100,
    status := Router.PositionStatus.Active }

/-- State with one active position (id 5, trader `trader`, MM `mm`) and the
BTC price at 101 — one percent above the entry price of 100. -/
def c9_state : Router.AppState :=
  { requests := [], quotes := [],
    positions := [(5, { pos_long with id := 5 })],
    prices := [(Router.Market.BtcPerp, 101)] }

/-- A request on a market for which the state below caches no price. -/
def c10_request : Router.TradeRequest :=
  { id := 11, agent_id := "t", market := Router.Market.EthPerp,
    side := Router.Side.Short, size_usdc := 500, leverage := 5,
    max_funding_rate := 1/100, expires_at := 1000 }

/-- A quote for `c10_request`. -/
def c10_quote : Router.Quote :=
  { id := 21, request_id := 11, agent_id := "m", funding_rate := 1/100,
    collateral_usdc := 50, valid_until := 1000 }

/-- State with an empty price map: `accept_quote` will fall back to an
entry price of 0. -/
def c10_state : Router.AppState :=
  { requests := [(11, c10_request)], quotes := [(11, [c10_quote])],
    positions := [], prices := [] }

/-- The position `accept_quote` builds from `c10_state` (id drawn as 7):
its entry price is 0. -/
def c10_pos : Router.Position :=
  { id := 7, request_id := 11, quote_id := 21, trader_agent := "t",
    mm_agent := "m", market := Router.Market.EthPerp, side := Router.Side.Short,
    size_usdc := 500, leverage := 5, entry_price := 0, funding_rate := 1/100,
    trader_collateral := 100, mm_collateral := 50,
    status := Router.PositionStatus.Active }

/-- A taker of quantity 1.5 and two makers of quantity 1 at the same level:
the taker exhausts the first maker and half of the second. -/
def w_taker : Engine.Order :=
  Engine.Order.new_limit 9 "w" Engine.Side.Buy 50000 (3/2) Engine.TimeInForce.GTC

/-- First maker at the level (quantity 1). -/
def w_m1 : Engine.Order :=
  Engine.Order.new_limit 1 "x" Engine.Side.Sell 50000 1 Engine.TimeInForce.GTC

/-- Second maker at the level (quantity 1). -/
def w_m2 : Engine.Order :=
  Engine.Order.new_limit 2 "y" Engine.Side.Sell 50000 1 Engine.TimeInForce.GTC

end Fixtures

section EngineTheorems

open Engine

/-- Helper for C8: a taker with zero remaining quantity leaves the makers
of a level untouched (the `break` at the top of the maker loop). -/
theorem fillLoop_untouched (price : ℚ) (taker : Order) (makers : List Order)
    (q : ℚ) (c : Nat) (h : taker.remainingQuantity = 0) :
    (fillLoop price taker makers q c).makers = makers := by
  cases makers with
  | nil => rfl
  | cons m rest => simp [fillLoop, h]

/-- Helper for C8: the maker loop consumes a level strictly front-to-back —
if the maker at position `j` lost any quantity, every maker before it was
fully consumed. -/
theorem fillLoop_fifo (price : ℚ) :
    ∀ (makers : List Order) (taker : Order) (q : ℚ) (c : Nat) (i j : Nat), i < j →
      ((fillLoop price taker makers q c).makers.get? j).map Order.remainingQuantity ≠
        (makers.get? j).map Order.remainingQuantity →
      ((fillLoop price taker makers q c).makers.get? i).map Order.remainingQuantity = some 0 := by
  intro makers
  induction makers with
  | nil =>
      intro taker q c i j _ hch
      exact absurd rfl hch
  | cons m rest ih =>
      intro taker q c i j hij hch
      by_cases h0 : taker.remainingQuantity = 0
      · rw [fillLoop_untouched price taker (m :: rest) q c h0] at hch
        exact absurd rfl hch
      · have hstep : (fillLoop price taker (m :: rest) q c).makers =
            m.fill (min taker.remainingQuantity m.remainingQuantity) ::
              (fillLoop price (taker.fill (min taker.remainingQuantity m.remainingQuantity))
                rest (q - min taker.remainingQuantity m.remainingQuantity) (c + 1)).makers := by
          simp [fillLoop, h0]
        rcases Nat.exists_eq_add_of_lt hij with ⟨jj0, rfl⟩
        cases i with
        | zero =>
            rw [hstep]
            simp only [List.get?_cons_zero, Option.map_some]
            rw [hstep] at hch
            by_cases hle : taker.remainingQuantity ≤ m.remainingQuantity
            · exfalso
              apply hch
              have ht1 : (taker.fill (min taker.remainingQuantity m.remainingQuantity)).remainingQuantity = 0 := by
                simp [Order.fill, min_eq_left hle]
              rw [fillLoop_untouched _ _ _ _ _ ht1]
              simp [List.get?_cons_succ]
            · have hmin : min taker.remainingQuantity m.remainingQuantity = m.remainingQuantity :=
                min_eq_right (le_of_not_le hle)
              simp [Order.fill, hmin]
        | succ ii =>
            rw [hstep] at hch ⊢
            simp only [List.get?_cons_succ] at hch ⊢
            exact ih _ _ _ ii (ii + 1 + jj0) (by omega) (by simpa using hch)

/-- C1: the claim states a PostOnly order that would cross is rejected
with no trade and the book unchanged (spec scenario S6).  On the code,
`place_order` matches first against the live book; when the PostOnly taker
is fully filled by that pass its status is `Filled`, the trade is
returned, and the resting ask it consumed is gone (best ask becomes
`none`).  This run evaluates S6 exactly: best ask 50000, PostOnly buy at
50000 of quantity 1. -/
theorem c1_postonly_cross_not_rejected :
    ((s6_book.place_order s6_post).2.2).length = 1 ∧
    (s6_book.place_order s6_post).2.1.status = OrderStatus.Filled ∧
    (s6_book.place_order s6_post).1.bestAsk = none ∧
    s6_book.bestAsk = some 50000 := by
  refine ⟨by decide, by decide, by decide, by decide⟩

/-- C3 counterexample: the claim states that a FOK order that cannot be
fully filled has all matching effects undone and no trades emitted.  On
the code, a FOK buy of quantity 1 against a resting ask of quantity 0.5
returns the partial-fill trade, consumes the resting ask (best ask becomes
`none`), and only cancels the residual. -/
theorem c3_fok_partial_fill_not_undone :
    ((fok_book.place_order fok_order).2.2).length = 1 ∧
    (fok_book.place_order fok_order).2.1.status = OrderStatus.Cancelled ∧
    (fok_book.place_order fok_order).1.bestAsk = none ∧
    fok_book.bestAsk = some 50000 := by
  refine ⟨by decide, by decide, by decide, by decide⟩

/-- C3 amended: when matching leaves a FOK taker active with a nonzero
residual, nothing is undone — `place_order` returns exactly the book
produced by the greedy matching pass (best prices refreshed, sequence
bumped), the trades of that pass, and the taker with its residual
cancelled. -/
theorem c3_fok_greedy_effects_stand (book : Book) (o : Order)
    (hF : o.timeInForce = TimeInForce.FOK)
    (hA : (book.match_order o).2.1.isActive = true)
    (hR : (book.match_order o).2.1.remainingQuantity ≠ 0) :
    book.place_order o =
      (let b1 := (book.match_order o).1.update_best_prices
       ({ b1 with sequence := b1.sequence + 1 },
        (book.match_order o).2.1.cancel,
        (book.match_order o).2.2)) := by
  rcases hmo : book.match_order o with ⟨b1, o1, trades⟩
  rw [hmo] at hA hR
  change o1.isActive = true at hA
  change o1.remainingQuantity ≠ 0 at hR
  simp [Book.place_order, hmo, hF, hA, hR]

/-- C3 witness: the amended statement applied at the concrete book with a
half-quantity resting ask and the quantity-1 FOK buy. -/
theorem c3_fok_greedy_witness :
    fok_order.timeInForce = TimeInForce.FOK ∧
    (fok_book.match_order fok_order).2.1.isActive = true ∧
    (fok_book.match_order fok_order).2.1.remainingQuantity ≠ 0 ∧
    fok_book.place_order fok_order =
      (let b1 := (fok_book.match_order fok_order).1.update_best_prices
       ({ b1 with sequence := b1.sequence + 1 },
        (fok_book.match_order fok_order).2.1.cancel,
        (fok_book.match_order fok_order).2.2)) :=
  ⟨rfl, by decide, by decide,
    c3_fok_greedy_effects_stand fok_book fok_order rfl (by decide) (by decide)⟩

/-- C6: the claim states that a cancel by a non-owner fails and leaves the
book unchanged, the order still resting.  On the code,
`MatchingEngine::cancel_order` calls the book's `cancel_order` — which
removes and cancels the order, drops the level and refreshes the caches —
before comparing the owner, and returns the ownership error without
restoring anything: after agent `bob` cancels `alice`'s only order, the
call errors but the book is empty. -/
theorem c6_foreign_cancel_removes_order :
    (MatchingEngine.cancel_order c6_book 1 "bob").2 =
      Except.error (EngineError.InvalidOrder "Not order owner") ∧
    (MatchingEngine.cancel_order c6_book 1 "bob").1.bestBid = none ∧
    (MatchingEngine.cancel_order c6_book 1 "bob").1.ordersIndex = [] ∧
    c6_book.bestBid = some 50000 ∧
    (c6_book.ordersIndex.map Prod.fst) = [1] := by
  refine ⟨by rfl, by decide, by decide, by decide, by decide⟩

/-- C8: price-time priority.  General part: in the maker loop of
`match_order`, whenever the maker at a later position of a level lost
quantity, every earlier maker of that level was fully filled (strict FIFO).
Concrete part (spec scenario S2): with sells id 1 then id 2 resting at
50000, a buy of quantity 0.5 at 50000 yields exactly one trade whose maker
order id is 1. -/
theorem c8_price_time_priority :
    (∀ (price : ℚ) (taker : Order) (makers : List Order) (q : ℚ) (c : Nat) (i j : Nat),
        i < j →
        ((fillLoop price taker makers q c).makers.get? j).map Order.remainingQuantity ≠
          (makers.get? j).map Order.remainingQuantity →
        ((fillLoop price taker makers q c).makers.get? i).map Order.remainingQuantity = some 0) ∧
    (s2_book.place_order s2_buy).2.2 =
      [{ id := 0, price := 50000, quantity := 1/2, makerOrderId := 1, takerOrderId := 3,
         makerAgentId := "a1", takerAgentId := "a3" }] :=
  ⟨fun price taker makers q c i j hij hch => fillLoop_fifo price makers taker q c i j hij hch,
   by decide⟩

/-- C8 witness: the FIFO statement applied at a concrete level — a taker
of quantity 1.5 against two makers of quantity 1 changes the second maker,
and the first maker is indeed fully consumed. -/
theorem c8_price_time_priority_witness :
    (((fillLoop 50000 w_taker [w_m1, w_m2] 2 0).makers.get? 1).map Order.remainingQuantity ≠
      ([w_m1, w_m2].get? 1).map Order.remainingQuantity) ∧
    ((fillLoop 50000 w_taker [w_m1, w_m2] 2 0).makers.get? 0).map Order.remainingQuantity = some 0 :=
  ⟨by decide, c8_price_time_priority.1 50000 w_taker [w_m1, w_m2] 2 0 0 1 (by decide) (by decide)⟩

end EngineTheorems

section RouterTheorems

open Router

/-- C2 counterexample: the claim states a position is skipped (never
liquidated) when no fresh price is available.  The code has no staleness
machinery at all: with an empty price map it evaluates `should_liquidate`
at the fallback `entry_price`, and under a configuration whose maintenance
margin exceeds the collateral the position is liquidated on that fallback
data. -/
theorem c2_liquidation_without_price :
    price_of [] pos_long.market = none ∧
    (liquidation_tick [] cfg_ratio_two [pos_long]).map Position.status =
      [PositionStatus.Liquidated] := by
  refine ⟨by decide, by decide⟩

/-- C2 amended: one pass of the liquidation loop liquidates an active
position exactly when its equity at the latest cached price — falling back
to the position's entry price when the map has none — is below its
maintenance margin; absent prices do not cause a skip and no staleness
bound exists. -/
theorem c2_liquidation_iff_cached_price (prices : List (Market × ℚ))
    (config : MarginConfig) (p : Position) (hp : p.status = PositionStatus.Active) :
    (liquidation_tick prices config [p]).map Position.status = [PositionStatus.Liquidated] ↔
      equity p ((price_of prices p.market).getD p.entry_price) <
        maintenance_margin p.trader_collateral config := by
  by_cases hlt : equity p ((price_of prices p.market).getD p.entry_price) <
      maintenance_margin p.trader_collateral config
  · simp [liquidation_tick, should_liquidate, hp, hlt]
  · simp [liquidation_tick, should_liquidate, hp, hlt]

/-- C2 witness: the amended statement at a concrete input — the long
position marked at a cached price of 90 is liquidated, and indeed its
equity there is below maintenance margin. -/
theorem c2_liquidation_iff_witness :
    pos_long.status = PositionStatus.Active ∧
    ((liquidation_tick [(Market.BtcPerp, 90)] MarginConfig.default [pos_long]).map
        Position.status = [PositionStatus.Liquidated] ↔
      equity pos_long ((price_of [(Market.BtcPerp, 90)] pos_long.market).getD
          pos_long.entry_price) <
        maintenance_margin pos_long.trader_collateral MarginConfig.default) :=
  ⟨rfl, c2_liquidation_iff_cached_price [(Market.BtcPerp, 90)] MarginConfig.default pos_long rfl⟩

/-- C4 counterexample: the claim states a positive funding rate transfers
value from the long side to the short side, so a trader on the short side
receives.  On the code the payment direction is fixed trader → MM
(`payment_amount` positive means the trader pays the MM, per the source's
own comment): an active short position with positive rate yields a
strictly positive `payment_amount` — the short-side trader pays. -/
theorem c4_short_trader_pays :
    pos_short.side = Side.Short ∧
    0 < pos_short.funding_rate ∧
    0 < (funding_payment 8 pos_short).payment_amount ∧
    settle_funding 8 [pos_short] = [funding_payment 8 pos_short] := by
  refine ⟨rfl, by decide, by decide, by decide⟩

/-- C4 amended: each funding settlement of an active position produces one
record whose amount is `size × rate / (365·24/interval)`, positive —
i.e. paid by the trader to the MM — whenever the rate, the size and the
interval are positive, independently of which side the trader holds; the
transfer is zero-sum between the two sides by construction (one signed
amount debited from the trader and credited to the MM). -/
theorem c4_funding_trader_to_mm (interval_hours : ℚ) (p : Position)
    (h1 : 0 < interval_hours) (h2 : 0 < p.funding_rate) (h3 : 0 < p.size_usdc) :
    (funding_payment interval_hours p).payment_amount =
      p.size_usdc * p.funding_rate / (365 * 24 / interval_hours) ∧
    0 < (funding_payment interval_hours p).payment_amount ∧
    (funding_payment interval_hours p).trader_agent = p.trader_agent ∧
    (funding_payment interval_hours p).mm_agent = p.mm_agent := by
  refine ⟨rfl, ?_, rfl, rfl⟩
  have hden : (0 : ℚ) < 365 * 24 / interval_hours := by
    apply div_pos (by norm_num) h1
  exact div_pos (mul_pos h3 h2) hden

/-- C4 witness: the amended statement at the 8-hour interval and the
concrete short position. -/
theorem c4_funding_trader_to_mm_witness :
    (0 : ℚ) < 8 ∧ 0 < pos_short.funding_rate ∧ 0 < pos_short.size_usdc ∧
    ((funding_payment 8 pos_short).payment_amount =
        pos_short.size_usdc * pos_short.funding_rate / (365 * 24 / 8) ∧
      0 < (funding_payment 8 pos_short).payment_amount ∧
      (funding_payment 8 pos_short).trader_agent = pos_short.trader_agent ∧
      (funding_payment 8 pos_short).mm_agent = pos_short.mm_agent) :=
  ⟨by norm_num, by decide, by decide,
    c4_funding_trader_to_mm 8 pos_short (by norm_num) (by decide) (by decide)⟩

/-- C5: the claim states `accept_quote` fails when the request or quote
has expired and never creates a position from expired entries.  The code
consults no expiry field: run on a state whose request expired at time 0
and whose quote's validity ended at time 0 (both long past at any positive
time, e.g. 100), the call succeeds and creates an `Active` position. -/
theorem c5_accept_expired_creates_position :
    c5_request.expires_at < 100 ∧
    c5_quote.valid_until < 100 ∧
    (accept_quote c5_state 10 20 99).2 = Except.ok c5_expected ∧
    c5_expected.status = PositionStatus.Active ∧
    ((accept_quote c5_state 10 20 99).1.positions.map Prod.fst) = [99] := by
  refine ⟨by decide, by decide, by rfl, rfl, by decide⟩

/-- C7 counterexample: the claim gives the liquidation price of a long as
`entry × (1 − maintenance_rate / leverage)` — 95 for entry 100,
maintenance rate 0.5, leverage 10.  The code computes 50 for that position
(its `factor` divides by `size × leverage / entry`, leaving an extra
factor of `entry` in the deviation). -/
theorem c7_liquidation_price_deviates :
    liquidation_price pos_long MarginConfig.default = 50 ∧
    pos_long.entry_price *
        (1 - MarginConfig.default.maintenance_ratio / (pos_long.leverage : ℚ)) = 95 ∧
    (50 : ℚ) ≠ 95 := by
  refine ⟨by decide, by decide, by norm_num⟩

/-- C7 amended: the computed liquidation price equals
`entry × (1 + (maintenance_ratio − 1) × collateral × entry / (size × leverage))`
for a long position and the same with a minus sign for a short position —
the code's actual formula, with the extra `entry` factor inside the
deviation term. -/
theorem c7_liquidation_price_formula (p : Position) (config : MarginConfig) :
    liquidation_price p config =
      (match p.side with
       | Side.Long => p.entry_price * (1 + (config.maintenance_ratio - 1) *
           p.trader_collateral * p.entry_price / (p.size_usdc * (p.leverage : ℚ)))
       | Side.Short => p.entry_price * (1 - (config.maintenance_ratio - 1) *
           p.trader_collateral * p.entry_price / (p.size_usdc * (p.leverage : ℚ)))) := by
  unfold liquidation_price maintenance_margin
  cases hs : p.side <;> simp only [hs] <;> rw [div_div_eq_mul_div] <;> ring_nf

/-- C9: `close_position` ignores the requesting agent entirely — for any
state and position id its result and state change are identical for any
two agent strings — and concretely an agent (`mallory`) that is neither
the position's trader nor its MM successfully closes an active position. -/
theorem c9_close_position_agent_blind :
    (∀ (st : AppState) (position_id : Nat) (a b : String),
        close_position st position_id a = close_position st position_id b) ∧
    (close_position c9_state 5 "mallory").2 = Except.ok (100, -100) ∧
    "mallory" ≠ ({ pos_long with id := 5 } : Position).trader_agent ∧
    "mallory" ≠ ({ pos_long with id := 5 } : Position).mm_agent :=
  ⟨fun _ _ _ _ => rfl, by rfl, by decide, by decide⟩

/-- C10: when `accept_quote` runs for a request whose market has no cached
price, the position it creates has entry price 0 (`unwrap_or(0.0)`); and
`unrealized_pnl` divides the price change by `entry_price` with no guard,
so on any position with entry price 0 the computation has no real value
(division by zero, rendered as `none`). -/
theorem c10_entry_zero_and_pnl_undefined :
    (∀ (st : AppState) (request_id quote_id newId : Nat) (rq : Nat × TradeRequest),
        st.requests.find? (fun e => decide (e.1 = request_id)) = some rq →
        price_of st.prices rq.2.market = none →
        ∀ pos, (accept_quote st request_id quote_id newId).2 = Except.ok pos →
          pos.entry_price = 0) ∧
    (∀ (p : Position) (current_price : ℚ), p.entry_price = 0 →
        unrealized_pnl_real p current_price = none) := by
  constructor
  · intro st request_id quote_id newId rq hreq hpr pos hok
    unfold accept_quote at hok
    split at hok
    · exact absurd hok (by simp)
    · rename_i rq2 hreq2
      split at hok
      · exact absurd hok (by simp)
      · rename_i qs hq
        split at hok
        · exact absurd hok (by simp)
        · rename_i quote hq2
          have hrq : rq2 = rq := by
            rw [hreq2] at hreq
            exact Option.some.inj hreq
          injection hok with h3
          rw [← h3, hrq]
          simp [hpr]
  · intro p current_price h
    simp [unrealized_pnl_real, fdiv, h]

/-- C10 witness: both parts applied at the concrete state with an empty
price map — the created position carries entry price 0 and its unrealised
PnL is undefined at any mark price. -/
theorem c10_entry_zero_witness :
    c10_pos.entry_price = 0 ∧ unrealized_pnl_real c10_pos 2200 = none :=
  ⟨c10_entry_zero_and_pnl_undefined.1 c10_state 11 21 7 (11, c10_request)
      (by rfl) (by rfl) c10_pos (by rfl),
   c10_entry_zero_and_pnl_undefined.2 c10_pos 2200 rfl⟩

end RouterTheorems
